import Mathlib

/-!
Verification development for the DocBook XML extraction engine and the
asynchronous job orchestration layer of the workshop-ragV2 backend
(`app/services/xml_processor.py`, `app/services/async_processor.py`,
`app/services/job_persistence.py`).

Strings are modelled as `List Char`.  The regular expressions of the source
are translated into equivalent hand-rolled matchers on character lists; each
matcher is documented with the regex it embeds.  Python dictionaries are
modelled as insertion-ordered association lists, which is the iteration
order Python guarantees.  Python `set` iteration order is unspecified; where
the source iterates over a set (layer codes, standard references) the model
iterates in first-insertion order, a fixed representative — every claim
below is about ID sets or about documents where at most one element is
involved, so the choice is immaterial.  Scanning loops of the source
(`re.findall`, the chunking `while` loop, batch loops) are modelled with an
explicit fuel argument large enough for the loop bound; fuel-independence of
the chunking loop is itself one of the verified claims.
-/

namespace XP

/-- Strings of the source are modelled as lists of characters. -/
abbrev Str := List Char

/-- Shorthand turning a Lean string literal into the model representation. -/
def str (s : String) : Str := s.toList

/-- Whitespace characters recognised by Python `str.split`, `str.strip` and
the regex class backslash-s (ASCII range). -/
def isPyWs (c : Char) : Bool :=
  c = ' ' || c.toNat = 9 || c.toNat = 10 || c.toNat = 13 || c.toNat = 11 || c.toNat = 12

/-- Python `str.strip()`. -/
def strip (s : Str) : Str :=
  ((s.dropWhile isPyWs).reverse.dropWhile isPyWs).reverse

/-- Decidable prefix test on character lists. -/
def isPrefOf : Str → Str → Bool
  | [], _ => true
  | _ :: _, [] => false
  | a :: as, b :: bs => a = b && isPrefOf as bs

/-- Python substring containment, `needle in hay`. -/
def containsSub (needle : Str) : Str → Bool
  | [] => needle.isEmpty
  | c :: t => isPrefOf needle (c :: t) || containsSub needle t

/-- Python `text.replace(term, "", 1)`: remove the first occurrence. -/
def removeFirst (needle : Str) : Str → Str
  | [] => []
  | c :: t =>
    if isPrefOf needle (c :: t) then (c :: t).drop needle.length
    else c :: removeFirst needle t

/-- ASCII lower-casing, Python `str.lower` restricted to ASCII input. -/
def lowerStr (s : Str) : Str := s.map Char.toLower

/-- Python `str.split()`: split on runs of whitespace, no empty pieces. -/
def splitWsAux : Str → Str → List Str
  | [], cur => if cur.isEmpty then [] else [cur.reverse]
  | c :: t, cur =>
    if isPyWs c then
      if cur.isEmpty then splitWsAux t [] else cur.reverse :: splitWsAux t []
    else splitWsAux t (c :: cur)

/-- Whitespace tokenisation, the source `_simple_tokenize` (`text.split()`). -/
def simple_tokenize (s : Str) : List Str := splitWsAux s []

/-- Python `" ".join(parts)`. -/
def joinSp (parts : List Str) : Str := List.intercalate (str " ") parts

/-- Greedy run of decimal digits: the consumed digits and the rest. -/
def takeDigits (s : Str) : Str × Str := (s.takeWhile Char.isDigit, s.dropWhile Char.isDigit)

/-- First alternative of a literal regex alternation that matches at the
start of the input; returns the matched literal and the remainder.  The
alternation lists used in the source have no member that is a prefix of
another, so first-match equals the regex backtracking semantics. -/
def altMatch (alts : List Str) (s : Str) : Option (Str × Str) :=
  match alts with
  | [] => none
  | a :: t => if isPrefOf a s then some (a, s.drop a.length) else altMatch t s

/-- The ten layer codes, in the alternation order of `BAUSTEIN_PATTERN`. -/
def schichtCodes : List Str :=
  [str "ISMS", str "ORP", str "CON", str "OPS", str "DER",
   str "APP", str "SYS", str "IND", str "NET", str "INF"]

/-- `SCHICHT_PATTERNS`: the fixed layer-code to layer-name table. -/
def schichtTable : List (Str × Str) :=
  [(str "ISMS", str "Sicherheitsmanagement"),
   (str "ORP", str "Organisation und Personal"),
   (str "CON", str "Konzepte und Vorgehensweisen"),
   (str "OPS", str "Betrieb"),
   (str "DER", str "Detektion und Reaktion"),
   (str "APP", str "Anwendungen"),
   (str "SYS", str "IT-Systeme"),
   (str "IND", str "Industrielle IT"),
   (str "NET", str "Netze und Kommunikation"),
   (str "INF", str "Infrastruktur")]

/-- Lookup in an insertion-ordered association list (Python `dict` get). -/
def alistGet (k : Str) : List (Str × Str) → Option Str
  | [] => none
  | (k', v) :: t => if k = k' then some v else alistGet k t

/-- `BAUSTEIN_PATTERN.match`, the anchored regex
`(ISMS|ORP|CON|OPS|DER|APP|SYS|IND|NET|INF) dot digits (dot digits)?`;
returns the matched text (group 0). -/
def baustein_match (s : Str) : Option Str :=
  match altMatch schichtCodes s with
  | none => none
  | some (p, r1) =>
    match r1 with
    | '.' :: r2 =>
      let (d1, r3) := takeDigits r2
      if d1.isEmpty then none
      else
        match r3 with
        | '.' :: r4 =>
          let (d2, _) := takeDigits r4
          if d2.isEmpty then some (p ++ '.' :: d1) else some (p ++ '.' :: d1 ++ '.' :: d2)
        | _ => some (p ++ '.' :: d1)
    | _ => none

/-- `GEFAEHRDUNG_PATTERN.match`, the anchored regex
`G ws-star 0? dot digits`; returns the matched text (group 0). -/
def gefaehrdung_match (s : Str) : Option Str :=
  match s with
  | 'G' :: r1 =>
    let ws := r1.takeWhile isPyWs
    let r2 := r1.dropWhile isPyWs
    match r2 with
    | '0' :: '.' :: r4 =>
      let (d, _) := takeDigits r4
      if d.isEmpty then none else some ('G' :: ws ++ '0' :: '.' :: d)
    | '.' :: r4 =>
      let (d, _) := takeDigits r4
      if d.isEmpty then none else some ('G' :: ws ++ '.' :: d)
    | _ => none
  | _ => none

/-- `ANFORDERUNG_PATTERN.match`, the anchored regex
`[A-Z]+ dot digits (dot digits)? dot A digits`; returns group 1 (the whole
match).  The helper closes the mandatory `dot A digits` tail; if the
optional middle group consumed input but the tail then fails, the regex
backtracks to the variant without the middle group, which is mirrored here. -/
def anfTail (r : Str) : Option Str :=
  match r with
  | '.' :: 'A' :: r5 =>
    let (d3, _) := takeDigits r5
    if d3.isEmpty then none else some ('.' :: 'A' :: d3)
  | _ => none

def anforderung_match (s : Str) : Option Str :=
  let letters := s.takeWhile Char.isUpper
  let r1 := s.dropWhile Char.isUpper
  if letters.isEmpty then none
  else
    match r1 with
    | '.' :: r2 =>
      let (d1, r3) := takeDigits r2
      if d1.isEmpty then none
      else
        match r3 with
        | '.' :: r4 =>
          let (d2, r5) := takeDigits r4
          if d2.isEmpty then (anfTail r3).map (fun t => letters ++ '.' :: d1 ++ t)
          else
            match anfTail r5 with
            | some t => some (letters ++ '.' :: d1 ++ '.' :: d2 ++ t)
            | none => (anfTail r3).map (fun t => letters ++ '.' :: d1 ++ t)
        | _ => (anfTail r3).map (fun t => letters ++ '.' :: d1 ++ t)
    | _ => none

/-- `ANFORDERUNG_TYP_PATTERN.search`, the regex
`open-paren [BSH] close-paren ws-star end`: the tier letter when the title
ends with a parenthesised B, S or H (up to trailing whitespace). -/
def extract_anforderung_typ (s : Str) : Option Char :=
  match s.reverse.dropWhile isPyWs with
  | ')' :: c :: '(' :: _ => if c = 'B' || c = 'S' || c = 'H' then some c else none
  | _ => none

/-- `_is_discontinued`: marker text in the title or the body. -/
def is_discontinued (title content : Str) : Bool :=
  containsSub (str "ENTFALLEN") title ||
  containsSub (str "Diese Anforderung ist entfallen") content

/-- Case-insensitive literal test (regex IGNORECASE on an ASCII literal). -/
def isPrefOfCI (p s : Str) : Bool := isPrefOf (lowerStr p) (lowerStr (s.take p.length))

/-- ASCII letter, the class `[A-Z]` under IGNORECASE. -/
def isAsciiLetter (c : Char) : Bool := c.isUpper || ('a' ≤ c && c ≤ 'z')

/-- One attempt of `CROSS_REFERENCE_PATTERN` at the current position: the
regex `siehe ws-plus ([A-Z]+ dot digits (dot digits)? (dot A digits)?)`
with IGNORECASE.  Returns group 1 and the remaining input after the match. -/
def tryCrossRef (s : Str) : Option (Str × Str) :=
  if isPrefOfCI (str "siehe") s then
    let r := s.drop 5
    let ws := r.takeWhile isPyWs
    if ws.isEmpty then none
    else
      let r2 := r.dropWhile isPyWs
      let letters := r2.takeWhile isAsciiLetter
      let r3 := r2.dropWhile isAsciiLetter
      if letters.isEmpty then none
      else
        match r3 with
        | '.' :: r4 =>
          let (d1, r5) := takeDigits r4
          if d1.isEmpty then none
          else
            let core := letters ++ '.' :: d1
            let (mid, r6) :=
              match r5 with
              | '.' :: r7 =>
                let (d2, r8) := takeDigits r7
                if d2.isEmpty then (([] : Str), r5) else ('.' :: d2, r8)
              | _ => (([] : Str), r5)
            let (tl, rest) :=
              match r6 with
              | '.' :: a :: r9 =>
                if a = 'A' || a = 'a' then
                  let (d3, r10) := takeDigits r9
                  if d3.isEmpty then (([] : Str), r6) else ('.' :: a :: d3, r10)
                else (([] : Str), r6)
              | _ => (([] : Str), r6)
            some (core ++ mid ++ tl, rest)
        | _ => none
  else none

/-- `CROSS_REFERENCE_PATTERN.findall`: scan left to right, non-overlapping
matches, advancing one character on failure.  Fuel is the input length;
every successful match consumes at least one character. -/
def crossRefScan : Nat → Str → List Str
  | 0, _ => []
  | _ + 1, [] => []
  | fuel + 1, c :: t =>
    match tryCrossRef (c :: t) with
    | some (code, rest) => code :: crossRefScan fuel rest
    | none => crossRefScan fuel t

/-- `_extract_cross_references`. -/
def extract_cross_references (s : Str) : List Str := crossRefScan s.length s

/-- One attempt of `STANDARD_REFERENCE_PATTERN` at the current position
(IGNORECASE): the three alternatives
`ISO [/ws]* (IEC)? ws* digits ([:-] digits)?`,
`NIST ws+ (SP ws*)? digits (- digits)?`,
`BSI-Standard ws* digits (- digits)?`, tried in this order.  Returns the
matched text exactly as written in the input, and the remaining input. -/
def tryStdISO (s : Str) : Option (Str × Str) :=
  if isPrefOfCI (str "ISO") s then
    let m1 := s.take 3
    let r1 := s.drop 3
    let sep := r1.takeWhile (fun c => c = '/' || isPyWs c)
    let r2 := r1.dropWhile (fun c => c = '/' || isPyWs c)
    let (iec, r3) := if isPrefOfCI (str "IEC") r2 then (r2.take 3, r2.drop 3) else (([] : Str), r2)
    let ws2 := r3.takeWhile isPyWs
    let r4 := r3.dropWhile isPyWs
    let (d1, r5) := takeDigits r4
    if d1.isEmpty then none
    else
      match r5 with
      | c :: r6 =>
        if c = ':' || c = '-' then
          let (d2, r7) := takeDigits r6
          if d2.isEmpty then some (m1 ++ sep ++ iec ++ ws2 ++ d1, r5)
          else some (m1 ++ sep ++ iec ++ ws2 ++ d1 ++ c :: d2, r7)
        else some (m1 ++ sep ++ iec ++ ws2 ++ d1, r5)
      | [] => some (m1 ++ sep ++ iec ++ ws2 ++ d1, r5)
  else none

def tryStdNIST (s : Str) : Option (Str × Str) :=
  if isPrefOfCI (str "NIST") s then
    let m1 := s.take 4
    let r1 := s.drop 4
    let ws := r1.takeWhile isPyWs
    if ws.isEmpty then none
    else
      let r2 := r1.dropWhile isPyWs
      let (sp, r3) :=
        if isPrefOfCI (str "SP") r2 then
          let afterSp := r2.drop 2
          (r2.take 2 ++ afterSp.takeWhile isPyWs, afterSp.dropWhile isPyWs)
        else (([] : Str), r2)
      let (d1, r4) := takeDigits r3
      if d1.isEmpty then none
      else
        match r4 with
        | '-' :: r5 =>
          let (d2, r6) := takeDigits r5
          if d2.isEmpty then some (m1 ++ ws ++ sp ++ d1, r4)
          else some (m1 ++ ws ++ sp ++ d1 ++ '-' :: d2, r6)
        | _ => some (m1 ++ ws ++ sp ++ d1, r4)
  else none

def tryStdBSI (s : Str) : Option (Str × Str) :=
  if isPrefOfCI (str "BSI-Standard") s then
    let m1 := s.take 12
    let r1 := s.drop 12
    let ws := r1.takeWhile isPyWs
    let r2 := r1.dropWhile isPyWs
    let (d1, r3) := takeDigits r2
    if d1.isEmpty then none
    else
      match r3 with
      | '-' :: r4 =>
        let (d2, r5) := takeDigits r4
        if d2.isEmpty then some (m1 ++ ws ++ d1, r3)
        else some (m1 ++ ws ++ d1 ++ '-' :: d2, r5)
      | _ => some (m1 ++ ws ++ d1, r3)
  else none

def tryStd (s : Str) : Option (Str × Str) :=
  match tryStdISO s with
  | some r => some r
  | none =>
    match tryStdNIST s with
    | some r => some r
    | none => tryStdBSI s

/-- `STANDARD_REFERENCE_PATTERN.findall` (fuel-bounded scan, as above). -/
def stdRefScan : Nat → Str → List Str
  | 0, _ => []
  | _ + 1, [] => []
  | fuel + 1, c :: t =>
    match tryStd (c :: t) with
    | some (m, rest) => m :: stdRefScan fuel rest
    | none => stdRefScan fuel t

/-- `_extract_standard_references`. -/
def extract_standard_references (s : Str) : List Str := stdRefScan s.length s

/-- `ROLE_PATTERNS`, in source order. -/
def rolePatterns : List Str :=
  [str "ISB", str "IT-Betrieb", str "Benutzende", str "Datenschutzbeauftragte",
   str "Institutionsleitung", str "Vorgesetzte", str "Mitarbeitende",
   str "Personalabteilung", str "Haustechnik", str "Beschaffung",
   str "IT-Administratoren", str "Entwickelnde", str "Fachverantwortliche"]

/-- One attempt of the role regex `[ ( alternatives ) ]` (a bracketed role
name) at the current position. -/
def tryRole (s : Str) : Option (Str × Str) :=
  match s with
  | '[' :: r =>
    match altMatch rolePatterns r with
    | some (name, r2) =>
      match r2 with
      | ']' :: r3 => some (name, r3)
      | _ => none
    | none => none
  | _ => none

def roleScan : Nat → Str → List Str
  | 0, _ => []
  | _ + 1, [] => []
  | fuel + 1, c :: t =>
    match tryRole (c :: t) with
    | some (name, rest) => name :: roleScan fuel rest
    | none => roleScan fuel t

/-- `_extract_roles_from_title` (`findall` of the compiled role pattern). -/
def extract_roles_from_title (s : Str) : List Str := roleScan s.length s

/-! ### Decimal rendering of naturals (Python `str(i)` in f-strings) -/

/-- A decimal digit as a character. -/
def digitChar : Nat → Char
  | 0 => '0' | 1 => '1' | 2 => '2' | 3 => '3' | 4 => '4'
  | 5 => '5' | 6 => '6' | 7 => '7' | 8 => '8' | _ => '9'

/-- Digits of a positive natural, most significant first, fuel-bounded
(fuel larger than the value always suffices since division by ten
decreases). -/
def natDecAux : Nat → Nat → Str
  | 0, _ => []
  | _ + 1, 0 => []
  | fuel + 1, n + 1 => natDecAux fuel ((n + 1) / 10) ++ [digitChar ((n + 1) % 10)]

/-- Decimal rendering of a natural number, as Python `str`. -/
def natToDec (n : Nat) : Str := if n = 0 then ['0'] else natDecAux (n + 1) n

/-! ### Data model (`ExtractedEntity`, `ExtractedRelationship`, `ExtractedChunk`) -/

/-- `EntityType`. -/
inductive EntityType where
  | schicht | baustein | gefaehrdung | anforderung | rolle | glossary_term | standard
deriving DecidableEq, Repr

/-- The string value of an entity type (`EntityType.value`). -/
def EntityType.val : EntityType → Str
  | .schicht => str "schicht"
  | .baustein => str "baustein"
  | .gefaehrdung => str "gefaehrdung"
  | .anforderung => str "anforderung"
  | .rolle => str "rolle"
  | .glossary_term => str "glossary_term"
  | .standard => str "standard"

/-- `generate_entity_id`: the f-string `type.value : identifier`. -/
def generate_entity_id (t : EntityType) (ident : Str) : Str :=
  t.val ++ ':' :: ident

/-- A metadata value: a string, a list of strings, or Python `None`.  The
`metadata` dictionaries of the source only ever hold these shapes. -/
inductive MetaVal where
  | s (v : Str)
  | ls (v : List Str)
  | null
deriving DecidableEq, Repr

/-- A metadata dictionary: insertion-ordered key/value pairs. -/
abbrev Meta := List (Str × MetaVal)

/-- Python `metadata.get(key, default=None)`. -/
def metaGet (k : Str) : Meta → Option MetaVal
  | [] => none
  | (k', v) :: t => if k = k' then some v else metaGet k t

/-- Python `metadata.get(key, [])` for list-valued keys. -/
def metaGetList (k : Str) (m : Meta) : List Str :=
  match metaGet k m with
  | some (.ls v) => v
  | _ => []

/-- `ExtractedEntity`. -/
structure EntityRec where
  id : Str
  type : EntityType
  title : Str
  content : Str
  bookmark_id : Option Str := none
  parent_id : Option Str := none
  metadata : Meta := []
deriving DecidableEq, Repr

/-- `ExtractedRelationship` (the metadata field is never set by the
extractor, so it is omitted). -/
structure RelRec where
  source_id : Str
  target_id : Str
  relationship_type : Str
deriving DecidableEq, Repr

/-- `ExtractedChunk`. -/
structure ChunkRec where
  id : Str
  content : Str
  entity_id : Str
  entity_type : EntityType
  bookmark_id : Option Str := none
  chunk_index : Nat := 0
  total_chunks : Nat := 1
  metadata : Meta := []
  glossary_term_ids : List Str := []
deriving DecidableEq, Repr

/-- The chunk id f-string `entity_id :chunk: index`. -/
def mkChunkId (eid : Str) (i : Nat) : Str := eid ++ str ":chunk:" ++ natToDec i

/-! ### XML document model

An `ElementTree` element: tag (namespace resolution of the `db:` qualifier
is modelled as identity, so tags are plain names such as `chapter`,
`section`, `title`, `para`, `emphasis`), the `xml:id` attribute (bookmark),
the `role` attribute (used on glossary `emphasis` elements), leading text,
trailing text (`tail`), and child elements in document order. -/
inductive Element where
  | mk (tag : Str) (xmlId : Option Str) (roleAttr : Option Str) (text : Str) (tail : Str)
       (children : List Element)

def Element.tag : Element → Str
  | .mk t _ _ _ _ _ => t

/-- `_get_bookmark_id`: the `xml:id` attribute. -/
def Element.xmlId : Element → Option Str
  | .mk _ b _ _ _ _ => b

def Element.roleAttr : Element → Option Str
  | .mk _ _ r _ _ _ => r

def Element.textStr : Element → Str
  | .mk _ _ _ tx _ _ => tx

def Element.tailStr : Element → Str
  | .mk _ _ _ _ tl _ => tl

def Element.childList : Element → List Element
  | .mk _ _ _ _ _ cs => cs

mutual
/-- `_get_element_text`: the element text, then for each child its own
recursive text followed by its tail (skipping falsy pieces), joined with a
single space and stripped. -/
def get_element_text : Element → Str
  | .mk _ _ _ tx _ cs =>
    strip (joinSp ((if tx.isEmpty then [] else [tx]) ++ childTextParts cs))

def childTextParts : List Element → List Str
  | [] => []
  | c :: t =>
    (get_element_text c :: (if c.tailStr.isEmpty then [] else [c.tailStr])) ++ childTextParts t
end

mutual
/-- All proper descendants of an element, in document (preorder) order:
the ElementTree query `.//tag` before tag filtering. -/
def elemDescendants : Element → List Element
  | .mk _ _ _ _ _ cs => descList cs

def descList : List Element → List Element
  | [] => []
  | c :: t => c :: elemDescendants c ++ descList t
end

/-- `element.findall(".//db:tag", NS)`. -/
def findAllDesc (tagName : Str) (e : Element) : List Element :=
  (elemDescendants e).filter (fun x => x.tag == tagName)

/-- `element.findall("db:tag", NS)`: direct children only. -/
def findDirect (tagName : Str) (e : Element) : List Element :=
  e.childList.filter (fun x => x.tag == tagName)

/-- `element.find("db:tag", NS)`: first direct child with the tag. -/
def findFirst (tagName : Str) (e : Element) : Option Element :=
  e.childList.find? (fun x => x.tag == tagName)

/-! ### Processor configuration and mutable state -/

/-- The constructor arguments of `DocBookXMLProcessor`, stored unchanged.
The extra field `md5hex8` models `hashlib.md5(term.encode()).hexdigest()[:8]`
as a fixed but uninterpreted function: no claim below depends on the value
of the digest, only on it being a deterministic function of the term. -/
structure Config where
  chunk_size : Nat := 512
  chunk_overlap : Nat := 128
  extract_glossary : Bool := true
  track_discontinued : Bool := true
  store_bookmark_ids : Bool := true
  glossary_linking : Str := str "exact_match"
  md5hex8 : Str → Str

/-- `DocBookXMLProcessor.__init__`: every argument is stored verbatim; in
particular no relation between `chunk_overlap` and `chunk_size` is checked. -/
def processor_init (chunk_size chunk_overlap : Nat) (eg td sb : Bool) (glink : Str)
    (md5 : Str → Str) : Config :=
  { chunk_size := chunk_size, chunk_overlap := chunk_overlap, extract_glossary := eg,
    track_discontinued := td, store_bookmark_ids := sb, glossary_linking := glink,
    md5hex8 := md5 }

/-- The glossary dictionary (term to definition), insertion-ordered. -/
abbrev GlossMap := List (Str × Str)

/-- Python dict assignment `d[k] = v`: update in place keeping the original
insertion position, or append a new key at the end. -/
def dictSet (k v : Str) : GlossMap → GlossMap
  | [] => [(k, v)]
  | (k', v') :: t => if k = k' then (k, v) :: t else (k', v') :: dictSet k v t

/-- The three mutable lists of the processor (`_entities`,
`_relationships`, `_chunks`). -/
structure PState where
  entities : List EntityRec := []
  rels : List RelRec := []
  chunks : List ChunkRec := []
deriving Repr

/-- `_link_glossary_terms`: case-insensitive containment of each known term
in the text, in dictionary order, deduplicating the generated IDs. -/
def link_glossary_terms (cfg : Config) (gl : GlossMap) (text : Str) : List Str :=
  if gl.isEmpty then []
  else
    let tl := lowerStr text
    (gl.map Prod.fst).foldl (fun acc term =>
      if containsSub (lowerStr term) tl then
        let eid := generate_entity_id .glossary_term (cfg.md5hex8 term)
        if acc.contains eid then acc else acc ++ [eid]
      else acc) []

/-- `_detect_schicht`: the layer code is the part of the building-block
code before the first period, looked up in the fixed table. -/
def detect_schicht (bid : Str) : Option Str :=
  match baustein_match bid with
  | some _ =>
    let p := bid.takeWhile (fun c => !(c == '.'))
    if (alistGet p schichtTable).isSome then some p else none
  | none => none

/-! ### Chunking (`_chunk_text`) -/

/-- The chunking `while` loop: window `tokens[start : start + chunk_size]`,
stop after the window that reaches the end, otherwise advance the start by
`chunk_size - chunk_overlap` (natural subtraction; the source relies on the
caller passing `chunk_overlap < chunk_size`, see the termination claim).
`fuel` bounds the iteration count; `tokens.length` iterations always
suffice when the step is positive, which is proved below. -/
def windowLoop (cs ov : Nat) (tokens : List Str) : Nat → Nat → List Str
  | 0, _ => []
  | fuel + 1, start =>
    if start < tokens.length then
      let content := joinSp ((tokens.drop start).take cs)
      if tokens.length ≤ start + cs then [content]
      else content :: windowLoop cs ov tokens fuel (start + (cs - ov))
    else []

/-- `_chunk_text`. -/
def chunk_text (cfg : Config) (gl : GlossMap) (text eid : Str) (et : EntityType)
    (bm : Option Str) (md : Meta) : List ChunkRec :=
  let tokens := simple_tokenize text
  if tokens.length ≤ cfg.chunk_size then
    [{ id := mkChunkId eid 0, content := text, entity_id := eid, entity_type := et,
       bookmark_id := bm, chunk_index := 0, total_chunks := 1, metadata := md,
       glossary_term_ids := link_glossary_terms cfg gl text }]
  else
    let contents := windowLoop cfg.chunk_size cfg.chunk_overlap tokens tokens.length 0
    contents.enum.map (fun pr =>
      { id := mkChunkId eid pr.1, content := pr.2, entity_id := eid, entity_type := et,
        bookmark_id := bm, chunk_index := pr.1, total_chunks := contents.length,
        metadata := md, glossary_term_ids := link_glossary_terms cfg gl pr.2 })

/-! ### Glossary extraction (`_extract_glossary`) -/

/-- Handling of one paragraph of a glossary chapter. -/
def glossParaStep (cfg : Config) (para : Element) (acc : GlossMap × PState) : GlossMap × PState :=
  match para.childList.find?
      (fun x => x.tag == str "emphasis" && x.roleAttr == some (str "strong")) with
  | none => acc
  | some emph =>
    let term := strip (get_element_text emph)
    let full := get_element_text para
    let defn := strip (removeFirst term full)
    if term.isEmpty || defn.isEmpty then acc
    else
      let (gl, st) := acc
      let eid := generate_entity_id .glossary_term (cfg.md5hex8 term)
      let ent : EntityRec :=
        { id := eid, type := .glossary_term, title := term,
          content := defn, bookmark_id := para.xmlId,
          metadata := [(str "original_term", .s term)] }
      (dictSet term defn gl, { st with entities := st.entities ++ [ent] })

/-- `_extract_glossary`: every chapter whose title contains `Glossar`, every
paragraph with a strong emphasis, term and definition pulled apart. -/
def extract_glossary (cfg : Config) (root : Element) (st : PState) : GlossMap × PState :=
  ((findAllDesc (str "chapter") root).filter (fun ch =>
      match findFirst (str "title") ch with
      | some t => containsSub (str "Glossar") (get_element_text t)
      | none => false)).foldl
    (fun acc ch => (findAllDesc (str "para") ch).foldl (fun a p => glossParaStep cfg p a) acc)
    ([], st)

/-! ### Section processing -/

/-- `_process_gefaehrdungen_chapter`. -/
def process_gefaehrdungen_chapter (cfg : Config) (gl : GlossMap) (chapter : Element)
    (st : PState) : PState :=
  let chTitle := match findFirst (str "title") chapter with
    | some t => get_element_text t
    | none => []
  if ¬ containsSub (str "Elementare Gefährdungen") chTitle then st
  else
    (findAllDesc (str "section") chapter).foldl (fun s sec =>
      match findFirst (str "title") sec with
      | none => s
      | some te =>
        let secTitle := get_element_text te
        match gefaehrdung_match secTitle with
        | none => s
        | some m0 =>
          let content := get_element_text sec
          let gefId := m0.filter (fun c => !(c == ' '))
          let eid := generate_entity_id .gefaehrdung gefId
          let md : Meta := [(str "gefaehrdung_id", .s gefId),
            (str "cross_references", .ls (extract_cross_references content)),
            (str "standard_references", .ls (extract_standard_references content))]
          let bm := if cfg.store_bookmark_ids then sec.xmlId else none
          let ent : EntityRec :=
            { id := eid, type := .gefaehrdung, title := secTitle,
              content := content, bookmark_id := bm, metadata := md }
          { s with entities := s.entities ++ [ent],
                   chunks := s.chunks ++ chunk_text cfg gl content eid .gefaehrdung bm md }) st

/-- Loop body for one discovered cross-reference of a requirement: a code
containing `.A` targets a requirement id, anything else a building-block
id; the target entity need not exist. -/
def anfCrossRefStep (eid : Str) (s : PState) (cr : Str) : PState :=
  let tt : EntityType := if containsSub (str ".A") cr then .anforderung else .baustein
  { s with rels := s.rels ++ [⟨eid, generate_entity_id tt cr, str "REFERENCES"⟩] }

/-- Loop body for one role found in a requirement title: the role entity is
created lazily (deduplicated by id against the current entity list), the
responsibility edge always. -/
def anfRoleStep (eid : Str) (s : PState) (role : Str) : PState :=
  let rid := generate_entity_id .rolle role
  let rent : EntityRec :=
    { id := rid, type := .rolle, title := role,
      content := str "Rolle: " ++ role, metadata := [(str "role_name", .s role)] }
  let s' := if s.entities.any (fun e => e.id == rid) then s
    else { s with entities := s.entities ++ [rent] }
  { s' with rels := s'.rels ++ [⟨rid, eid, str "ZUSTAENDIG_FUER"⟩] }

/-- Processing of one (descendant) section inside `_process_anforderungen`:
skip unless the title matches the requirement pattern; otherwise create the
requirement entity, its `BELONGS_TO` edge, `REFERENCES` edges for
cross-references, lazily created role entities with `ZUSTAENDIG_FUER`
edges, and — unless the requirement is discontinued while discontinued
tracking is on — its chunks. -/
def process_anf_section (cfg : Config) (gl : GlossMap) (baustein_eid baustein_code : Str)
    (sec : Element) (st : PState) : PState :=
  match findFirst (str "title") sec with
  | none => st
  | some te =>
    let title := get_element_text te
    match anforderung_match title with
    | none => st
    | some anf_code =>
      let content := get_element_text sec
      let anf_typ := extract_anforderung_typ title
      let disc := is_discontinued title content
      let roles := extract_roles_from_title title
      let eid := generate_entity_id .anforderung anf_code
      let md0 : Meta := [(str "anforderung_code", .s anf_code),
        (str "baustein_code", .s baustein_code),
        (str "anforderung_typ", match anf_typ with | some c => .s [c] | none => .null),
        (str "roles", .ls roles),
        (str "cross_references", .ls (extract_cross_references content)),
        (str "standard_references", .ls (extract_standard_references content))]
      let md := if cfg.track_discontinued && disc
        then md0 ++ [(str "status", .s (str "entfallen"))] else md0
      let bm := if cfg.store_bookmark_ids then sec.xmlId else none
      let ent : EntityRec :=
        { id := eid, type := .anforderung, title := title, content := content,
          bookmark_id := bm, parent_id := some baustein_eid, metadata := md }
      let s1 : PState :=
        { st with entities := st.entities ++ [ent],
                  rels := st.rels ++ [⟨eid, baustein_eid, str "BELONGS_TO"⟩] }
      let s2 := (metaGetList (str "cross_references") md).foldl (anfCrossRefStep eid) s1
      let s3 := roles.foldl (anfRoleStep eid) s2
      if cfg.track_discontinued && disc then s3
      else { s3 with chunks := s3.chunks ++ chunk_text cfg gl content eid .anforderung bm md }

/-- `_process_anforderungen`: all descendant sections of the building-block
section, in document order. -/
def process_anforderungen (cfg : Config) (gl : GlossMap) (baustein_eid baustein_code : Str)
    (bsec : Element) (st : PState) : PState :=
  (findAllDesc (str "section") bsec).foldl
    (fun s x => process_anf_section cfg gl baustein_eid baustein_code x s) st

/-- `_process_baustein_section`. -/
def process_baustein_section (cfg : Config) (gl : GlossMap) (schichtArg : Option Str)
    (sec : Element) (st : PState) : PState :=
  match findFirst (str "title") sec with
  | none => st
  | some te =>
    let title := get_element_text te
    match baustein_match title with
    | none => st
    | some code =>
      let content := get_element_text sec
      let schicht_id := match schichtArg with
        | some s => some s
        | none =>
          match detect_schicht code with
          | some p => some (generate_entity_id .schicht p)
          | none => none
      let eid := generate_entity_id .baustein code
      let md : Meta := [(str "baustein_code", .s code),
        (str "schicht", match detect_schicht code with | some p => .s p | none => .null),
        (str "cross_references", .ls (extract_cross_references content)),
        (str "standard_references", .ls (extract_standard_references content))]
      let bm := if cfg.store_bookmark_ids then sec.xmlId else none
      let ent : EntityRec :=
        { id := eid, type := .baustein, title := title, content := content,
          bookmark_id := bm, parent_id := schicht_id, metadata := md }
      let s1 : PState := { st with entities := st.entities ++ [ent] }
      let s2 := match schicht_id with
        | some sid => { s1 with rels := s1.rels ++ [⟨eid, sid, str "BELONGS_TO"⟩] }
        | none => s1
      let s3 := process_anforderungen cfg gl eid code sec s2
      (findDirect (str "section") sec).foldl (fun s sub =>
        match findFirst (str "title") sub with
        | none => s
        | some ste =>
          let stitle := get_element_text ste
          if stitle = str "Beschreibung" ∨ stitle = str "Einleitung" ∨ stitle = str "Zielsetzung"
          then
            let dc := get_element_text sub
            { s with chunks := s.chunks ++ chunk_text cfg gl dc eid .baustein bm md }
          else s) s3

/-! ### Derived entities and final assembly -/

/-- The distinct layer codes of the building-block entities, in
first-insertion order (the source iterates a Python `set` here, whose order
is unspecified; all claims below are order-insensitive or involve at most
one code). -/
def schichtCodesOf (st : PState) : List Str :=
  st.entities.foldl (fun acc e =>
    if e.type = EntityType.baustein then
      match metaGet (str "schicht") e.metadata with
      | some (.s code) => if acc.contains code then acc else acc ++ [code]
      | _ => acc
    else acc) []

/-- `_create_schicht_entities`. -/
def create_schicht_entities (st : PState) : PState :=
  (schichtCodesOf st).foldl (fun s code =>
    let eid := generate_entity_id .schicht code
    let nm := match alistGet code schichtTable with | some v => v | none => str "Unbekannt"
    let nm2 := match alistGet code schichtTable with | some v => v | none => []
    let ent : EntityRec :=
      { id := eid, type := .schicht,
        title := code ++ str " - " ++ nm,
        content := str "Schicht " ++ code ++ str ": " ++ nm2,
        metadata := [(str "schicht_code", .s code)] }
    { s with entities := s.entities ++ [ent] }) st

/-- The distinct standard-reference strings over all entities, in
first-insertion order (a Python `set` in the source, as above). -/
def stdRefsOf (st : PState) : List Str :=
  st.entities.foldl (fun acc e =>
    (metaGetList (str "standard_references") e.metadata).foldl
      (fun a r => if a.contains r then a else a ++ [r]) acc) []

/-- The normalisation `ref.upper().replace(" ", "")`. -/
def normalizeStd (r : Str) : Str := (r.map Char.toUpper).filter (fun c => !(c == ' '))

/-- `_extract_standard_entities`. -/
def extract_standard_entities (st : PState) : PState :=
  (stdRefsOf st).foldl (fun s r =>
    let eid := generate_entity_id .standard (normalizeStd r)
    let ent : EntityRec :=
      { id := eid, type := .standard, title := r,
        content := str "Standard: " ++ r, metadata := [(str "standard_reference", .s r)] }
    let s1 : PState := { s with entities := s.entities ++ [ent] }
    s1.entities.foldl (fun s2 other =>
      if (metaGetList (str "standard_references") other.metadata).contains r then
        { s2 with rels := s2.rels ++ [⟨other.id, eid, str "BASIERT_AUF"⟩] }
      else s2) s1) st

/-- `_create_glossary_relationships`. -/
def create_glossary_relationships (st : PState) : PState :=
  st.chunks.foldl (fun s ck =>
    ck.glossary_term_ids.foldl (fun s2 tid =>
      { s2 with rels := s2.rels ++ [⟨ck.entity_id, tid, str "USES_TERM"⟩] }) s) st

/-- The count dictionaries of the statistics block. -/
def bumpCount (k : Str) : List (Str × Nat) → List (Str × Nat)
  | [] => [(k, 1)]
  | (k', n) :: t => if k = k' then (k', n + 1) :: t else (k', n) :: bumpCount k t

/-- `processing_stats` (the wall-clock `processing_time_seconds` entry is
real time and is not modelled). -/
structure Stats where
  total_entities : Nat
  total_relationships : Nat
  total_chunks : Nat
  total_glossary_terms : Nat
  entities_by_type : List (Str × Nat)
  relationships_by_type : List (Str × Nat)
deriving DecidableEq, Repr

/-- The input file, modelled as the parsed element tree together with the
two values `process_file` derives from the raw bytes and the path: the
SHA-256 hex digest (`calculate_file_hash`) and the base name.  Identical
files yield identical `XMLFile` values. -/
structure XMLFile where
  root : Element
  sha256hex : Str
  filename : Str

/-- `XMLProcessingResult`. -/
structure XMLProcessingResult where
  document_id : Str
  filename : Str
  entities : List EntityRec
  relationships : List RelRec
  chunks : List ChunkRec
  glossary_terms : GlossMap
  processing_stats : Stats

/-- `DocBookXMLProcessor.process_file`.  The arguments `prior` and
`priorGloss` are the processor's mutable lists and glossary dictionary as
left behind by any earlier call; the source resets all of them before any
work (lines 676-679), which is why they are ignored. -/
def process_file (cfg : Config) (file : XMLFile) (prior : PState) (priorGloss : GlossMap) :
    XMLProcessingResult :=
  let _ := prior
  let _ := priorGloss
  let st0 : PState := {}
  let root := file.root
  let glSt := if cfg.extract_glossary then extract_glossary cfg root st0 else ([], st0)
  let gl := glSt.1
  let st1 := glSt.2
  let st2 := (findAllDesc (str "chapter") root).foldl (fun s ch =>
    match findFirst (str "title") ch with
    | none => s
    | some te =>
      let t := get_element_text te
      if containsSub (str "Elementare Gefährdungen") t then
        process_gefaehrdungen_chapter cfg gl ch s
      else
        (findDirect (str "section") ch).foldl
          (fun s' x => process_baustein_section cfg gl none x s') s) st1
  let st3 := (findAllDesc (str "section") root).foldl (fun s sec =>
    match findFirst (str "title") sec with
    | none => s
    | some te =>
      match baustein_match (get_element_text te) with
      | none => s
      | some code =>
        let eid := generate_entity_id .baustein code
        if s.entities.any (fun e => e.id == eid) then s
        else process_baustein_section cfg gl none sec s) st2
  let st4 := create_schicht_entities st3
  let st5 := extract_standard_entities st4
  let st6 := create_glossary_relationships st5
  { document_id := file.sha256hex, filename := file.filename,
    entities := st6.entities, relationships := st6.rels, chunks := st6.chunks,
    glossary_terms := gl,
    processing_stats := {
      total_entities := st6.entities.length, total_relationships := st6.rels.length,
      total_chunks := st6.chunks.length, total_glossary_terms := gl.length,
      entities_by_type := st6.entities.foldl (fun m e => bumpCount e.type.val m) [],
      relationships_by_type := st6.rels.foldl (fun m r => bumpCount r.relationship_type m) [] } }

/-! ### Ghost view of the chunking loop: start and end token indices -/

/-- The token-index windows walked by the chunking loop: pairs of start
index and (exclusive) end index, with the end clamped to the token count.
Mirrors `windowLoop` exactly. -/
def windowIdx (cs ov N : Nat) : Nat → Nat → List (Nat × Nat)
  | 0, _ => []
  | fuel + 1, start =>
    if start < N then
      if N ≤ start + cs then [(start, N)]
      else (start, start + cs) :: windowIdx cs ov N fuel (start + (cs - ov))
    else []

/-- The canonical digit list of a natural (empty for zero). -/
def natDigits (n : Nat) : Str := natDecAux (n + 1) n

/-! ### The asynchronous orchestration and job-persistence layer

The collaborators of `AsyncXMLProcessor._store_chunks` (embedding provider,
vector store, persistence) are abstracted to their call traces: which chunk
contents were embedded, which point IDs were upserted, which chunk IDs were
marked completed.  The cancellation set is modelled by the constant answer
the membership test `job_id in self._cancelled_jobs` would give during the
run. -/

/-- `JobStatus` of `job_persistence.py`. -/
inductive JobStatus where
  | pending | running | paused | completed | failed | cancelled | resumable
deriving DecidableEq, Repr

/-- The observable calls made by `_store_chunks`, in order. -/
structure StoreTrace where
  embedded : List Str
  upserted : List Str
  marked : List Str
deriving DecidableEq, Repr

def traceAppend (a b : StoreTrace) : StoreTrace :=
  ⟨a.embedded ++ b.embedded, a.upserted ++ b.upserted, a.marked ++ b.marked⟩

/-- The batch loop of `_store_chunks` over the already-filtered list
`chunks_to_process`: batches of 32, each batch embedded
(`embedding_service.embed_texts`), upserted (`qdrant_service.upsert_points`
with the chunk id as point id) and then marked completed chunk by chunk.
The cancellation flag is checked at every batch boundary.  Fuel bounds the
iteration count; the list length suffices since every batch is nonempty. -/
def store_batches : Nat → List ChunkRec → Bool → StoreTrace
  | 0, _, _ => ⟨[], [], []⟩
  | _ + 1, [], _ => ⟨[], [], []⟩
  | fuel + 1, l, cancelled =>
    if cancelled then ⟨[], [], []⟩
    else
      let batch := l.take 32
      traceAppend
        ⟨batch.map (fun c => c.content), batch.map (fun c => c.id), batch.map (fun c => c.id)⟩
        (store_batches fuel (l.drop 32) cancelled)

/-- `_store_chunks`: fetch the completed chunk-ID set of the job, keep only
the chunks whose ID is not in it, then run the batch loop. -/
def store_chunks (chunks : List ChunkRec) (completedIds : List Str) (cancelled : Bool) :
    StoreTrace :=
  let toProcess := chunks.filter (fun c => !(completedIds.contains c.id))
  store_batches toProcess.length toProcess cancelled

/-- One row of the `jobs` table, with the fields exercised by the claims.
Timestamps are idealised as rationals (ISO strings compare
chronologically). -/
structure JobRow where
  status : JobStatus := .pending
  progress_percent : ℚ := 0
  error_message : Option Str := none
  total_chunks : Nat := 0
  completed_chunks : Nat := 0
  started_at : Option ℚ := none
  completed_at : Option ℚ := none
deriving DecidableEq, Repr

/-- `JobPersistenceService.update_job_progress`: a partial update; only the
supplied fields change.  A supplied progress value is stored as
`progress * 100` into the `progress_percent` column (line 288, the comment
of the source reads `Store as percentage`); `started_at` is coalesced on a
transition to running, `completed_at` is set on a terminal status. -/
def update_job_progress (row : JobRow) (status : Option JobStatus) (progress : Option ℚ)
    (total_chunks completed_chunks : Option Nat) (error_message : Option Str) (now : ℚ) :
    JobRow :=
  let r1 := match status with
    | none => row
    | some st =>
      let r := { row with status := st }
      if st = .running then
        { r with started_at := some (match r.started_at with | some v => v | none => now) }
      else if st = .completed ∨ st = .failed ∨ st = .cancelled then
        { r with completed_at := some now }
      else r
  let r2 := match progress with
    | none => r1
    | some p => { r1 with progress_percent := p * 100 }
  let r3 := match total_chunks with
    | none => r2
    | some n => { r2 with total_chunks := n }
  let r4 := match completed_chunks with
    | none => r3
    | some n => { r3 with completed_chunks := n }
  match error_message with
  | none => r4
  | some e => { r4 with error_message := some e }

/-- The slice of `JobRecord` that the progress stream reads. -/
structure JobRecordM where
  status : JobStatus
  progress : ℚ
  error_message : Option Str
deriving DecidableEq, Repr

/-- `_row_to_job_record`: the record's progress field is read directly from
the `progress_percent` column (line 141), with no rescaling. -/
def row_to_job_record (row : JobRow) : JobRecordM :=
  { status := row.status, progress := row.progress_percent,
    error_message := row.error_message }

/-- The progress value of the initial snapshot event that
`AsyncXMLProcessor.stream_progress` sends to a new subscriber (line 728,
`progress=job.progress`). -/
def stream_initial_snapshot (rec : JobRecordM) : ℚ := rec.progress

/-- The progress constant of the live event emitted at the start of the
embedding stage (`_process_async`, `ProcessingStage.EMBEDDING, 0.4`). -/
def embedding_stage_progress : ℚ := 2 / 5

/-- A row of the jobs table as seen by `cleanup_old_jobs`. -/
structure JobDbRow where
  id : Str
  status : JobStatus
  created_at : ℚ
deriving DecidableEq, Repr

/-- The retention resolution `retention_days or settings.JOB_RETENTION_DAYS`
(Python `or`: both a missing argument and an argument of zero fall back to
the configured default). -/
def cleanup_retention (retention_days : Option Nat) (default_days : Nat) : Nat :=
  match retention_days with
  | some 0 => default_days
  | some d => d
  | none => default_days

/-- `cleanup_old_jobs`: the SQL statement
`DELETE FROM jobs WHERE status IN (completed, failed) AND created_at < cutoff`
with `cutoff = now - days`; returns the remaining table and the rowcount of
deleted rows. -/
def cleanup_old_jobs : List JobDbRow → ℚ → List JobDbRow × Nat
  | [], _ => ([], 0)
  | r :: t, cutoff =>
    let rest := cleanup_old_jobs t cutoff
    if (r.status = .completed ∨ r.status = .failed) ∧ r.created_at < cutoff then
      (rest.1, rest.2 + 1)
    else (r :: rest.1, rest.2)

/-- `ProcessingOptions` of `async_processor.py`. -/
structure ProcessingOptionsM where
  preset_name : Str := str "it-grundschutz"
  chunk_size : Nat := 512
  chunk_overlap : Nat := 128
  extract_glossary : Bool := true
  track_discontinued : Bool := true
  store_bookmark_ids : Bool := true
  glossary_linking : Str := str "exact_match"
  create_graph : Bool := true
  collection_name : Option Str := none
deriving DecidableEq, Repr

/-- The slice of a persisted job record read by `resume_job`. -/
structure JobRecM where
  id : Str
  status : JobStatus
  file_path : Str
  options : Option ProcessingOptionsM
  completed_chunk_ids : List Str := []
deriving DecidableEq, Repr

/-- What `AsyncXMLProcessor.resume_job` does: its return value, the pipeline
launch it submits to the executor (file path and options), and whether it
set the job status back to running. -/
structure ResumeOutcome where
  returned : Bool
  launched : Option (Str × ProcessingOptionsM)
  statusSetRunning : Bool
deriving DecidableEq, Repr

/-- `resume_job`: a missing job or a status outside running and failed is
rejected with no side effect; otherwise the stored options (or the defaults
when none were stored) are used to re-launch the pipeline. -/
def resume_job : Option JobRecM → ResumeOutcome
  | none => ⟨false, none, false⟩
  | some j =>
    if j.status = .running ∨ j.status = .failed then
      let opts := match j.options with | some o => o | none => {}
      ⟨true, some (j.file_path, opts), true⟩
    else ⟨false, none, false⟩

/-! ### Comparison definition for the discontinued-requirement policy

`process_anf_section_nodisc` follows the wording of the specification for a
requirement that is **not** discontinued: it is `process_anf_section` with
the discontinued flag forced to false.  The policy claim compares the real
function against it when discontinued tracking is off. -/
def process_anf_section_nodisc (cfg : Config) (gl : GlossMap)
    (baustein_eid baustein_code : Str) (sec : Element) (st : PState) : PState :=
  match findFirst (str "title") sec with
  | none => st
  | some te =>
    let title := get_element_text te
    match anforderung_match title with
    | none => st
    | some anf_code =>
      let content := get_element_text sec
      let anf_typ := extract_anforderung_typ title
      let disc := false
      let roles := extract_roles_from_title title
      let eid := generate_entity_id .anforderung anf_code
      let md0 : Meta := [(str "anforderung_code", .s anf_code),
        (str "baustein_code", .s baustein_code),
        (str "anforderung_typ", match anf_typ with | some c => .s [c] | none => .null),
        (str "roles", .ls roles),
        (str "cross_references", .ls (extract_cross_references content)),
        (str "standard_references", .ls (extract_standard_references content))]
      let md := if cfg.track_discontinued && disc
        then md0 ++ [(str "status", .s (str "entfallen"))] else md0
      let bm := if cfg.store_bookmark_ids then sec.xmlId else none
      let ent : EntityRec :=
        { id := eid, type := .anforderung, title := title, content := content,
          bookmark_id := bm, parent_id := some baustein_eid, metadata := md }
      let s1 : PState :=
        { st with entities := st.entities ++ [ent],
                  rels := st.rels ++ [⟨eid, baustein_eid, str "BELONGS_TO"⟩] }
      let s2 := (metaGetList (str "cross_references") md).foldl (anfCrossRefStep eid) s1
      let s3 := roles.foldl (anfRoleStep eid) s2
      if cfg.track_discontinued && disc then s3
      else { s3 with chunks := s3.chunks ++ chunk_text cfg gl content eid .anforderung bm md }

/-! ### Concrete documents used by the scenario claims -/

/-- A concrete stand-in for the uninterpreted md5 digest, used only to state
closed counterexamples on documents that contain no glossary (the digest is
never consulted there). -/
def md5zero : Str → Str := fun _ => []

/-- The processor with its default options and the stand-in digest. -/
def cfgDefault : Config := processor_init 512 128 true true true (str "exact_match") md5zero

/-- A leaf `title` element. -/
def titleEl (s : String) : Element := .mk (str "title") none none (str s) [] []

/-- A leaf `para` element. -/
def paraEl (s : String) : Element := .mk (str "para") none none (str s) [] []

/-- A `section` element with the given children. -/
def secEl (ch : List Element) : Element := .mk (str "section") none none [] [] ch

/-- A `chapter` element with the given children. -/
def chapEl (ch : List Element) : Element := .mk (str "chapter") none none [] [] ch

/-- The requirement section `ORP.1.A1 Regelung (B)` whose body carries a
cross-reference to `ORP.2`. -/
def secA1 : Element :=
  secEl [titleEl "ORP.1.A1 Regelung (B)", paraEl "Es gilt siehe ORP.2 hier."]

/-- The building-block section `ORP.1 Organisation` holding the requirement. -/
def secORP1 : Element := secEl [titleEl "ORP.1 Organisation", secA1]

/-- The small round-trip document: one chapter with the one building-block. -/
def docC6 : Element := .mk (str "book") none none [] [] [chapEl [titleEl "Bausteine", secORP1]]

def fileC6 : XMLFile := { root := docC6, sha256hex := str "deadbeef", filename := str "c6.xml" }

/-- A building-block section with both a `Beschreibung` and an `Einleitung`
subsection: both are chunked against the same entity id, so both chunking
passes start at chunk index zero. -/
def secORP1b : Element :=
  secEl [titleEl "ORP.1 Organisation",
         secEl [titleEl "Beschreibung", paraEl "Text eins."],
         secEl [titleEl "Einleitung", paraEl "Text zwei."]]

def docC2 : Element := .mk (str "book") none none [] [] [chapEl [titleEl "Bausteine", secORP1b]]

def fileC2 : XMLFile := { root := docC2, sha256hex := str "cafe", filename := str "c2.xml" }

/-- A discontinued requirement section (marker in the title). -/
def secDisc : Element :=
  secEl [titleEl "ORP.9.A9 Alte Regelung ENTFALLEN (B)", paraEl "Kein Inhalt mehr."]

/-- The extraction result of the round-trip document under default options
and an arbitrary digest function. -/
def resultC6 (m : Str → Str) : XMLProcessingResult :=
  process_file (processor_init 512 128 true true true (str "exact_match") m) fileC6 {} []

/-- A small chunk geometry (size three, overlap one) for witnesses. -/
def cfgW : Config := processor_init 3 1 true true true (str "exact_match") md5zero

/-- Two tiny chunks for the resume witness. -/
def ckA : ChunkRec :=
  { id := str "a", content := str "ca", entity_id := str "e", entity_type := .anforderung }

def ckB : ChunkRec :=
  { id := str "b", content := str "cb", entity_id := str "e", entity_type := .anforderung }

/-- An old cancelled job for the cleanup counterexample. -/
def oldCancelledJob : JobDbRow := { id := str "job-1", status := .cancelled, created_at := 0 }

/-- Concrete job records for the resume witness. -/
def jobCancelled : JobRecM :=
  { id := str "j1", status := .cancelled, file_path := str "f.xml", options := none }

def jobFailed : JobRecM :=
  { id := str "j2", status := .failed, file_path := str "f.xml", options := some {} }

theorem windowIdx_stop (cs ov N : Nat) (fuel start : Nat) (h : ¬ start < N) :
    windowIdx cs ov N fuel start = [] := by
  cases fuel with
  | zero => rfl
  | succ f => simp [windowIdx, h]

theorem windowLoop_eq_windowIdx (cs ov : Nat) (tokens : List Str) :
    ∀ fuel start, windowLoop cs ov tokens fuel start =
      (windowIdx cs ov tokens.length fuel start).map
        (fun p => joinSp ((tokens.drop p.1).take cs)) := by
  intro fuel
  induction fuel with
  | zero => intro start; rfl
  | succ f ih =>
    intro start
    by_cases h1 : start < tokens.length
    · by_cases h2 : tokens.length ≤ start + cs
      · simp [windowLoop, windowIdx, h1, h2]
      · simp [windowLoop, windowIdx, h1, h2, ih]
    · simp [windowLoop, windowIdx, h1]

/-- Fuel irrelevance of the window loop indices: as soon as the fuel covers
the remaining token range, the produced windows no longer depend on it.
Requires a positive step, that is `ov < cs`. -/
theorem windowIdx_fuel_irrel (cs ov N : Nat) (hstep : ov < cs) :
    ∀ f1 f2 start, N ≤ f1 + start → N ≤ f2 + start →
      windowIdx cs ov N f1 start = windowIdx cs ov N f2 start := by
  intro f1
  induction f1 with
  | zero =>
    intro f2 start h1 _
    have hs : ¬ start < N := by omega
    rw [windowIdx_stop _ _ _ _ _ hs, windowIdx_stop _ _ _ _ _ hs]
  | succ f ih =>
    intro f2 start h1 h2
    by_cases hs : start < N
    · cases f2 with
      | zero => omega
      | succ g =>
        by_cases h3 : N ≤ start + cs
        · simp [windowIdx, hs, h3]
        · simp only [windowIdx, hs, h3, if_true, if_false, ite_true, ite_false]
          have := ih g (start + (cs - ov)) (by omega) (by omega)
          simp [hs, h3, this]
    · rw [windowIdx_stop _ _ _ _ _ hs, windowIdx_stop _ _ _ _ _ hs]

/-- The central invariant of the chunking loop, by induction on the fuel:
the windows start at the current position, end exactly at the token count,
have end index `min (start + chunk_size) N`, consecutive windows advance by
`chunk_size - chunk_overlap` and share exactly `chunk_overlap` token
positions, every non-final window is full length, and the windows jointly
cover every remaining token position. -/
theorem windowIdx_spec (cs ov N : Nat) (h1 : 0 < ov) (h2 : ov < cs) :
    ∀ fuel start, start < N → N ≤ fuel + start →
      (windowIdx cs ov N fuel start).head?.map Prod.fst = some start ∧
      ((windowIdx cs ov N fuel start).getLast?).map Prod.snd = some N ∧
      (∀ p ∈ windowIdx cs ov N fuel start, p.1 < N ∧ p.2 = min (p.1 + cs) N) ∧
      List.Chain' (fun p q => p.1 < q.1 ∧ q.1 < p.2 ∧ p.2 ≤ q.2 ∧ p.2 - q.1 = ov ∧ p.2 = p.1 + cs)
        (windowIdx cs ov N fuel start) ∧
      (∀ t, start ≤ t → t < N → ∃ p ∈ windowIdx cs ov N fuel start, p.1 ≤ t ∧ t < p.2) := by
  intro fuel
  induction fuel with
  | zero => intro start hs hf; omega
  | succ f ih =>
    intro start hs hf
    by_cases h3 : N ≤ start + cs
    · have hA : windowIdx cs ov N (f + 1) start = [(start, N)] := by
        simp [windowIdx, hs, h3]
      rw [hA]
      refine ⟨rfl, by simp, ?_, List.chain'_singleton _, ?_⟩
      · intro p hp
        simp only [List.mem_singleton] at hp
        subst hp
        exact ⟨hs, by omega⟩
      · intro t h4 h5
        exact ⟨(start, N), by simp, h4, h5⟩
    · have hstep : 0 < cs - ov := by omega
      have hs' : start + (cs - ov) < N := by omega
      have hf' : N ≤ f + (start + (cs - ov)) := by omega
      obtain ⟨ihHead, ihLast, ihMem, ihChain, ihCov⟩ := ih (start + (cs - ov)) hs' hf'
      have hL : windowIdx cs ov N (f + 1) start =
          (start, start + cs) :: windowIdx cs ov N f (start + (cs - ov)) := by
        simp [windowIdx, hs, h3]
      cases hq : windowIdx cs ov N f (start + (cs - ov)) with
      | nil => rw [hq] at ihHead; simp at ihHead
      | cons q tq =>
        rw [hq] at ihHead ihLast ihMem ihChain ihCov
        have hq1 : q.1 = start + (cs - ov) := by
          simpa using ihHead
        have hqmem : q ∈ q :: tq := List.mem_cons_self q tq
        have hq2 : q.2 = min (q.1 + cs) N := (ihMem q hqmem).2
        refine ⟨?_, ?_, ?_, ?_, ?_⟩
        · rw [hL, hq]; rfl
        · rw [hL, hq, List.getLast?_cons_cons]
          simpa using ihLast
        · rw [hL, hq]
          intro p hp
          rcases List.mem_cons.mp hp with hp | hp
          · subst hp; constructor
            · exact hs
            · simp; omega
          · exact ihMem p hp
        · rw [hL, hq]
          refine List.chain'_cons.mpr ⟨?_, ihChain⟩
          refine ⟨by omega, by omega, ?_, by omega, rfl⟩
          rw [hq2]
          have : start + cs ≤ q.1 + cs := by omega
          have hN : start + cs ≤ N := by omega
          exact le_min this hN
        · rw [hL, hq]
          intro t h4 h5
          by_cases h6 : t < start + cs
          · exact ⟨(start, start + cs), List.mem_cons_self _ _, h4, h6⟩
          · obtain ⟨p, hp, hp1, hp2⟩ := ihCov t (by omega) h5
            exact ⟨p, List.mem_cons_of_mem _ hp, hp1, hp2⟩

/-! ### Injectivity of the decimal rendering, hence of chunk IDs -/

theorem digitChar_inj : ∀ d, d < 10 → ∀ e, e < 10 → digitChar d = digitChar e → d = e := by
  decide

theorem natDecAux_zero (fuel : Nat) : natDecAux fuel 0 = [] := by
  cases fuel <;> rfl

theorem natDecAux_fuel_irrel : ∀ f1 f2 n, n < f1 → n < f2 → natDecAux f1 n = natDecAux f2 n := by
  intro f1
  induction f1 with
  | zero => omega
  | succ g1 ih =>
    intro f2 n h1 h2
    cases n with
    | zero => rw [natDecAux_zero, natDecAux_zero]
    | succ m =>
      cases f2 with
      | zero => omega
      | succ g2 =>
        show natDecAux g1 ((m + 1) / 10) ++ _ = natDecAux g2 ((m + 1) / 10) ++ _
        have hd : (m + 1) / 10 < g1 := by
          have := Nat.div_lt_self (Nat.succ_pos m) (by omega : 1 < 10)
          omega
        have hd2 : (m + 1) / 10 < g2 := by
          have := Nat.div_lt_self (Nat.succ_pos m) (by omega : 1 < 10)
          omega
        rw [ih g2 ((m + 1) / 10) hd hd2]

theorem natDigits_unfold (n : Nat) (hn : 0 < n) :
    natDigits n = natDigits (n / 10) ++ [digitChar (n % 10)] := by
  cases n with
  | zero => omega
  | succ m =>
    show natDecAux (m + 1) ((m + 1) / 10) ++ _ = natDecAux ((m + 1) / 10 + 1) ((m + 1) / 10) ++ _
    have hlt : (m + 1) / 10 < m + 1 := Nat.div_lt_self (Nat.succ_pos m) (by omega)
    rw [natDecAux_fuel_irrel (m + 1) ((m + 1) / 10 + 1) ((m + 1) / 10) hlt (by omega)]

theorem natDigits_ne_nil (n : Nat) (hn : 0 < n) : natDigits n ≠ [] := by
  rw [natDigits_unfold n hn]
  simp

theorem append_singleton_inj {α : Type} {xs ys : List α} {a b : α}
    (h : xs ++ [a] = ys ++ [b]) : xs = ys ∧ a = b := by
  have h' := congrArg List.reverse h
  simp only [List.reverse_append, List.reverse_cons, List.reverse_nil, List.nil_append,
    List.singleton_append, List.cons.injEq] at h'
  exact ⟨List.reverse_injective h'.2, h'.1⟩

theorem natDigits_inj : ∀ n k, natDigits n = natDigits k → n = k := by
  intro n
  induction n using Nat.strong_induction_on with
  | _ n ih =>
    intro k h
    cases Nat.eq_zero_or_pos n with
    | inl hn0 =>
      subst hn0
      cases Nat.eq_zero_or_pos k with
      | inl hk0 => omega
      | inr hk => exact absurd h.symm (natDigits_ne_nil k hk)
    | inr hn =>
      cases Nat.eq_zero_or_pos k with
      | inl hk0 =>
        subst hk0
        exact absurd h (natDigits_ne_nil n hn)
      | inr hk =>
        rw [natDigits_unfold n hn, natDigits_unfold k hk] at h
        obtain ⟨hpre, hdig⟩ := append_singleton_inj h
        have hmod : n % 10 = k % 10 :=
          digitChar_inj _ (Nat.mod_lt _ (by omega)) _ (Nat.mod_lt _ (by omega)) hdig
        cases Nat.eq_zero_or_pos (n / 10) with
        | inl hnd =>
          rw [hnd] at hpre
          have : natDigits (k / 10) = [] := by
            rw [← hpre]; rfl
          have hkd : k / 10 = 0 := by
            by_contra hne
            exact natDigits_ne_nil (k / 10) (Nat.pos_of_ne_zero hne) this
          omega
        | inr hnd =>
          have hlt : n / 10 < n := Nat.div_lt_self hn (by omega)
          have := ih (n / 10) hlt (k / 10) hpre
          omega

theorem natToDec_inj : ∀ n k, natToDec n = natToDec k → n = k := by
  intro n k h
  unfold natToDec at h
  by_cases hn : n = 0 <;> by_cases hk : k = 0 <;> simp [hn, hk] at h ⊢
  · have hkpos : 0 < k := Nat.pos_of_ne_zero hk
    have h' : natDigits k = ['0'] := h.symm
    rw [natDigits_unfold k hkpos] at h'
    have h0 : natDigits (k / 10) ++ [digitChar (k % 10)] = ([] : Str) ++ ['0'] := by
      simpa using h'
    obtain ⟨hpre, hdig⟩ := append_singleton_inj h0
    have hkd : k / 10 = 0 := by
      by_contra hne
      exact natDigits_ne_nil (k / 10) (Nat.pos_of_ne_zero hne) hpre
    have hmod : k % 10 = 0 :=
      digitChar_inj (k % 10) (Nat.mod_lt _ (by omega)) 0 (by omega) hdig
    omega
  · have hnpos : 0 < n := Nat.pos_of_ne_zero hn
    have h' : natDigits n = ['0'] := h
    rw [natDigits_unfold n hnpos] at h'
    have h0 : natDigits (n / 10) ++ [digitChar (n % 10)] = ([] : Str) ++ ['0'] := by
      simpa using h'
    obtain ⟨hpre, hdig⟩ := append_singleton_inj h0
    have hnd : n / 10 = 0 := by
      by_contra hne
      exact natDigits_ne_nil (n / 10) (Nat.pos_of_ne_zero hne) hpre
    have hmod : n % 10 = 0 :=
      digitChar_inj (n % 10) (Nat.mod_lt _ (by omega)) 0 (by omega) hdig
    omega
  · exact natDigits_inj n k h

theorem mkChunkId_inj (eid : Str) : ∀ i j, mkChunkId eid i = mkChunkId eid j → i = j := by
  intro i j h
  unfold mkChunkId at h
  rw [List.append_assoc, List.append_assoc] at h
  have h1 := List.append_cancel_left h
  have h2 := List.append_cancel_left h1
  exact natToDec_inj i j h2

/-! ### Generic helper lemmas about state-threading folds -/

theorem foldl_chunks_const {α : Type} (g : PState → α → PState)
    (hg : ∀ s a, (g s a).chunks = s.chunks) :
    ∀ (l : List α) (s : PState), (l.foldl g s).chunks = s.chunks := by
  intro l
  induction l with
  | nil => intro s; rfl
  | cons a t ih => intro s; rw [List.foldl_cons, ih, hg]

theorem foldl_entities_extend {α : Type} (g : PState → α → PState)
    (hg : ∀ s a, ∃ add, (g s a).entities = s.entities ++ add) :
    ∀ (l : List α) (s : PState), ∃ add, (l.foldl g s).entities = s.entities ++ add := by
  intro l
  induction l with
  | nil => intro s; exact ⟨[], by simp⟩
  | cons a t ih =>
    intro s
    obtain ⟨add1, h1⟩ := hg s a
    obtain ⟨add2, h2⟩ := ih (g s a)
    exact ⟨add1 ++ add2, by rw [List.foldl_cons, h2, h1, List.append_assoc]⟩

theorem length_filter_not {α : Type} (p : α → Bool) (l : List α) :
    (l.filter (fun x => !(p x))).length = l.length - (l.filter p).length := by
  induction l with
  | nil => rfl
  | cons a t ih =>
    have hlen : (t.filter p).length ≤ t.length := List.length_filter_le _ _
    by_cases h : p a
    · simp [List.filter_cons, h, ih]
    · have h' : p a = false := by
        cases hpa : p a
        · rfl
        · exact absurd hpa h
      simp [List.filter_cons, h', ih]
      omega

/-! ### Unfolding lemmas for `chunk_text` -/

theorem chunk_text_eq_single (cfg : Config) (gl : GlossMap) (text eid : Str) (et : EntityType)
    (bm : Option Str) (md : Meta) (h : (simple_tokenize text).length ≤ cfg.chunk_size) :
    chunk_text cfg gl text eid et bm md =
    [{ id := mkChunkId eid 0, content := text, entity_id := eid, entity_type := et,
       bookmark_id := bm, chunk_index := 0, total_chunks := 1, metadata := md,
       glossary_term_ids := link_glossary_terms cfg gl text }] := by
  unfold chunk_text
  simp [h]

theorem chunk_text_eq_windows (cfg : Config) (gl : GlossMap) (text eid : Str) (et : EntityType)
    (bm : Option Str) (md : Meta) (h : ¬ (simple_tokenize text).length ≤ cfg.chunk_size) :
    chunk_text cfg gl text eid et bm md =
    (windowLoop cfg.chunk_size cfg.chunk_overlap (simple_tokenize text)
        (simple_tokenize text).length 0).enum.map (fun pr =>
      { id := mkChunkId eid pr.1, content := pr.2, entity_id := eid, entity_type := et,
        bookmark_id := bm, chunk_index := pr.1,
        total_chunks := (windowLoop cfg.chunk_size cfg.chunk_overlap (simple_tokenize text)
          (simple_tokenize text).length 0).length,
        metadata := md, glossary_term_ids := link_glossary_terms cfg gl pr.2 }) := by
  unfold chunk_text
  simp [h]

theorem enum_mk_ids_nodup (eid : Str) (l : List Str) (g : Nat × Str → ChunkRec)
    (hg : ∀ pr, (g pr).id = mkChunkId eid pr.1) :
    ((l.enum.map g).map (fun c => c.id)).Nodup := by
  rw [List.map_map]
  have h1 : ((fun c : ChunkRec => c.id) ∘ g) = fun pr : Nat × Str => mkChunkId eid pr.1 :=
    funext (fun pr => hg pr)
  rw [h1]
  have h2 : (fun pr : Nat × Str => mkChunkId eid pr.1) = (mkChunkId eid) ∘ Prod.fst := rfl
  rw [h2, ← List.map_map, List.enum_map_fst]
  exact (List.nodup_range _).map (fun i j h => mkChunkId_inj eid i j h)

theorem chunk_text_ids_nodup (cfg : Config) (gl : GlossMap) (text eid : Str) (et : EntityType)
    (bm : Option Str) (md : Meta) :
    ((chunk_text cfg gl text eid et bm md).map (fun c => c.id)).Nodup := by
  by_cases h : (simple_tokenize text).length ≤ cfg.chunk_size
  · rw [chunk_text_eq_single cfg gl text eid et bm md h]
    simp
  · rw [chunk_text_eq_windows cfg gl text eid et bm md h]
    exact enum_mk_ids_nodup eid _ _ (fun pr => rfl)

theorem chunk_text_id_of_index (cfg : Config) (gl : GlossMap) (text eid : Str) (et : EntityType)
    (bm : Option Str) (md : Meta) :
    ∀ c ∈ chunk_text cfg gl text eid et bm md, c.id = mkChunkId eid c.chunk_index := by
  intro c hc
  by_cases h : (simple_tokenize text).length ≤ cfg.chunk_size
  · rw [chunk_text_eq_single cfg gl text eid et bm md h] at hc
    simp only [List.mem_singleton] at hc
    subst hc
    rfl
  · rw [chunk_text_eq_windows cfg gl text eid et bm md h] at hc
    simp only [List.mem_map] at hc
    obtain ⟨pr, _, rfl⟩ := hc
    rfl

/-! ### Claim theorems -/

/-- C1: `process_file` resets the processor's mutable state before any work,
so two runs on the same file with the same options produce the same result
whatever internal state an earlier run left behind — in particular the same
set of entity IDs, of relationship triples and of chunk IDs. -/
theorem c1_process_file_deterministic (cfg : Config) (file : XMLFile)
    (s1 s2 : PState) (g1 g2 : GlossMap) :
    process_file cfg file s1 g1 = process_file cfg file s2 g2 ∧
    ((process_file cfg file s1 g1).entities.map (fun e => e.id)).toFinset =
      ((process_file cfg file s2 g2).entities.map (fun e => e.id)).toFinset ∧
    ((process_file cfg file s1 g1).relationships.map
        (fun r => (r.source_id, r.target_id, r.relationship_type))).toFinset =
      ((process_file cfg file s2 g2).relationships.map
        (fun r => (r.source_id, r.target_id, r.relationship_type))).toFinset ∧
    ((process_file cfg file s1 g1).chunks.map (fun c => c.id)).toFinset =
      ((process_file cfg file s2 g2).chunks.map (fun c => c.id)).toFinset :=
  ⟨rfl, rfl, rfl, rfl⟩

/-- C2 counterexample: a document whose single building-block section has
both a `Beschreibung` and an `Einleitung` subsection is chunked twice
against the same entity id, so the extraction result carries the chunk id
`baustein:ORP.1:chunk:0` twice — the chunk IDs of one extraction pass are
not pairwise distinct. -/
theorem c2_counterexample :
    ¬ (((process_file cfgDefault fileC2 {} []).chunks.map (fun c => c.id)).Nodup) := by
  decide

/-- C2 amended: within the chunk list produced by one `_chunk_text` call
the chunk IDs are pairwise distinct and each chunk id is derived from the
owning entity id and the chunk index; re-extraction of the same document
yields the identical chunk ID list.  Distinctness over a whole document's
chunk list can fail when one entity's content is chunked more than once. -/
theorem c2_chunk_ids_amended :
    (∀ (cfg : Config) (gl : GlossMap) (text eid : Str) (et : EntityType)
       (bm : Option Str) (md : Meta),
       ((chunk_text cfg gl text eid et bm md).map (fun c => c.id)).Nodup ∧
       ∀ c ∈ chunk_text cfg gl text eid et bm md, c.id = mkChunkId eid c.chunk_index) ∧
    (∀ (cfg : Config) (file : XMLFile) (s1 s2 : PState) (g1 g2 : GlossMap),
       (process_file cfg file s1 g1).chunks.map (fun c => c.id) =
         (process_file cfg file s2 g2).chunks.map (fun c => c.id)) :=
  ⟨fun cfg gl text eid et bm md =>
    ⟨chunk_text_ids_nodup cfg gl text eid et bm md,
     chunk_text_id_of_index cfg gl text eid et bm md⟩,
   fun _ _ _ _ _ _ => rfl⟩

/-- C10: when `0 < chunk_overlap < chunk_size` every loop iteration
advances the window start by the positive step, so a fuel of one per token
suffices: any two sufficient fuels give the same windows (the while loop of
`_chunk_text` terminates).  The constructor stores any chunk geometry
verbatim, enforcing no precondition. -/
theorem c10_chunking_terminates (cs ov : Nat) (_h1 : 0 < ov) (h2 : ov < cs)
    (tokens : List Str) :
    (∀ f1 f2, tokens.length ≤ f1 → tokens.length ≤ f2 →
      windowLoop cs ov tokens f1 0 = windowLoop cs ov tokens f2 0) ∧
    (∀ (eg td sb : Bool) (glink : Str) (m : Str → Str),
      (processor_init cs ov eg td sb glink m).chunk_size = cs ∧
      (processor_init cs ov eg td sb glink m).chunk_overlap = ov) := by
  constructor
  · intro f1 f2 hf1 hf2
    rw [windowLoop_eq_windowIdx, windowLoop_eq_windowIdx,
      windowIdx_fuel_irrel cs ov tokens.length h2 f1 f2 0 (by omega) (by omega)]
  · intro eg td sb glink m
    exact ⟨rfl, rfl⟩

/-- Witness for C10 at a concrete geometry and token list. -/
theorem c10_chunking_terminates_witness :
    0 < 1 ∧ 1 < 2 ∧
    windowLoop 2 1 [str "a", str "b", str "c"] 3 0 =
      windowLoop 2 1 [str "a", str "b", str "c"] 7 0 :=
  ⟨by decide, by decide,
   (c10_chunking_terminates 2 1 (by decide) (by decide) [str "a", str "b", str "c"]).1
     3 7 (by decide) (by decide)⟩

/-- C4: with `0 < chunk_overlap < chunk_size`, content of at most
`chunk_size` tokens yields exactly one chunk holding the whole content;
longer content yields the token windows described by `windowIdx`: they
start at token zero, end exactly at the token count, cover every token
position in order, consecutive windows advance by the step and share
exactly `chunk_overlap` token positions, and every window with a successor
is exactly `chunk_size` tokens long (only the final one may be shorter). -/
theorem c4_chunk_coverage (cfg : Config) (gl : GlossMap) (text eid : Str) (et : EntityType)
    (bm : Option Str) (md : Meta)
    (h1 : 0 < cfg.chunk_overlap) (h2 : cfg.chunk_overlap < cfg.chunk_size) :
    ((simple_tokenize text).length ≤ cfg.chunk_size →
      (chunk_text cfg gl text eid et bm md).map (fun c => c.content) = [text]) ∧
    (cfg.chunk_size < (simple_tokenize text).length →
      ((chunk_text cfg gl text eid et bm md).map (fun c => c.content) =
        (windowIdx cfg.chunk_size cfg.chunk_overlap (simple_tokenize text).length
            (simple_tokenize text).length 0).map
          (fun p => joinSp (((simple_tokenize text).drop p.1).take cfg.chunk_size)) ∧
       (windowIdx cfg.chunk_size cfg.chunk_overlap (simple_tokenize text).length
          (simple_tokenize text).length 0).head?.map Prod.fst = some 0 ∧
       ((windowIdx cfg.chunk_size cfg.chunk_overlap (simple_tokenize text).length
          (simple_tokenize text).length 0).getLast?).map Prod.snd =
         some (simple_tokenize text).length ∧
       (∀ p ∈ windowIdx cfg.chunk_size cfg.chunk_overlap (simple_tokenize text).length
          (simple_tokenize text).length 0,
          p.1 < (simple_tokenize text).length ∧
          p.2 = min (p.1 + cfg.chunk_size) (simple_tokenize text).length) ∧
       List.Chain' (fun p q => p.1 < q.1 ∧ q.1 < p.2 ∧ p.2 ≤ q.2 ∧
          p.2 - q.1 = cfg.chunk_overlap ∧ p.2 = p.1 + cfg.chunk_size)
         (windowIdx cfg.chunk_size cfg.chunk_overlap (simple_tokenize text).length
          (simple_tokenize text).length 0) ∧
       (∀ t, t < (simple_tokenize text).length →
          ∃ p ∈ windowIdx cfg.chunk_size cfg.chunk_overlap (simple_tokenize text).length
            (simple_tokenize text).length 0, p.1 ≤ t ∧ t < p.2))) := by
  constructor
  · intro h
    rw [chunk_text_eq_single cfg gl text eid et bm md h]
    rfl
  · intro h
    have hn : ¬ (simple_tokenize text).length ≤ cfg.chunk_size := by omega
    have hstart : (0 : Nat) < (simple_tokenize text).length := by omega
    have hfuel : (simple_tokenize text).length ≤ (simple_tokenize text).length + 0 := by omega
    obtain ⟨hHead, hLast, hMem, hChain, hCov⟩ :=
      windowIdx_spec cfg.chunk_size cfg.chunk_overlap (simple_tokenize text).length h1 h2
        (simple_tokenize text).length 0 hstart hfuel
    refine ⟨?_, hHead, hLast, hMem, hChain, fun t ht => hCov t (by omega) ht⟩
    rw [chunk_text_eq_windows cfg gl text eid et bm md hn, List.map_map]
    have hcomp : ∀ pr : Nat × Str,
        ((fun c : ChunkRec => c.content) ∘ (fun pr : Nat × Str =>
          ({ id := mkChunkId eid pr.1, content := pr.2, entity_id := eid, entity_type := et,
             bookmark_id := bm, chunk_index := pr.1,
             total_chunks := (windowLoop cfg.chunk_size cfg.chunk_overlap (simple_tokenize text)
               (simple_tokenize text).length 0).length,
             metadata := md,
             glossary_term_ids := link_glossary_terms cfg gl pr.2 } : ChunkRec))) pr = pr.2 :=
      fun pr => rfl
    rw [funext hcomp, List.enum_map_snd, windowLoop_eq_windowIdx]

/-- Witness for C4: five tokens, window size three, overlap one. -/
theorem c4_chunk_coverage_witness :
    (chunk_text cfgW [] (str "a b c d e") (str "e") .anforderung none []).map
      (fun c => c.content) = [str "a b c", str "c d e"] :=
  ((c4_chunk_coverage cfgW [] (str "a b c d e") (str "e") .anforderung none []
      (by decide) (by decide)).2 (by decide)).1.trans (by decide)

/-- The batch loop processes, uncancelled, exactly the list it is given. -/
theorem store_batches_all : ∀ (fuel : Nat) (l : List ChunkRec), l.length ≤ fuel →
    store_batches fuel l false =
      ⟨l.map (fun c => c.content), l.map (fun c => c.id), l.map (fun c => c.id)⟩ := by
  intro fuel
  induction fuel with
  | zero =>
    intro l h
    have hl : l = [] := List.length_eq_zero.mp (by omega)
    subst hl
    rfl
  | succ f ih =>
    intro l h
    cases l with
    | nil => rfl
    | cons a t =>
      have hlen : ((a :: t).drop 32).length ≤ f := by
        simp only [List.length_drop, List.length_cons]
        simp only [List.length_cons] at h
        omega
      have hstep : store_batches (f + 1) (a :: t) false =
          traceAppend
            ⟨((a :: t).take 32).map (fun c => c.content),
             ((a :: t).take 32).map (fun c => c.id),
             ((a :: t).take 32).map (fun c => c.id)⟩
            (store_batches f ((a :: t).drop 32) false) := rfl
      rw [hstep, ih _ hlen]
      simp only [traceAppend, ← List.map_append, List.take_append_drop]

/-- C3: the chunk-storage stage of a resumed, uncancelled run embeds,
upserts and marks exactly the chunks whose IDs are not in the job's
completed-chunk set, in document order; their number is `n - k` where `k`
counts the chunks already recorded completed, and no upserted chunk id lies
in the completed set. -/
theorem c3_resume_processes_remainder (chunks : List ChunkRec) (completedIds : List Str)
    (cancelled : Bool) (hc : cancelled = false) :
    store_chunks chunks completedIds cancelled =
      ⟨(chunks.filter (fun c => !(completedIds.contains c.id))).map (fun c => c.content),
       (chunks.filter (fun c => !(completedIds.contains c.id))).map (fun c => c.id),
       (chunks.filter (fun c => !(completedIds.contains c.id))).map (fun c => c.id)⟩ ∧
    (store_chunks chunks completedIds cancelled).upserted.length =
      chunks.length - (chunks.filter (fun c => completedIds.contains c.id)).length ∧
    (∀ cid ∈ (store_chunks chunks completedIds cancelled).upserted,
      ¬ (completedIds.contains cid = true)) := by
  subst hc
  have hmain : store_chunks chunks completedIds false =
      ⟨(chunks.filter (fun c => !(completedIds.contains c.id))).map (fun c => c.content),
       (chunks.filter (fun c => !(completedIds.contains c.id))).map (fun c => c.id),
       (chunks.filter (fun c => !(completedIds.contains c.id))).map (fun c => c.id)⟩ :=
    store_batches_all _ _ (le_refl _)
  refine ⟨hmain, ?_, ?_⟩
  · rw [hmain]
    simp only [List.length_map]
    exact length_filter_not (fun c => completedIds.contains c.id) chunks
  · intro cid hcid
    rw [hmain] at hcid
    simp only [List.mem_map, List.mem_filter] at hcid
    obtain ⟨c, ⟨_, hflt⟩, rfl⟩ := hcid
    simp only [Bool.not_eq_true'] at hflt
    intro hcontra
    rw [hflt] at hcontra
    exact Bool.false_ne_true hcontra

/-- Witness for C3: of two chunks with one already completed, exactly the
other is embedded and upserted. -/
theorem c3_resume_processes_remainder_witness :
    store_chunks [ckA, ckB] [str "a"] false = ⟨[str "cb"], [str "b"], [str "b"]⟩ :=
  (c3_resume_processes_remainder [ckA, ckB] [str "a"] false rfl).1.trans (by decide)

/-- C5 (evaluation of the code at the failing input): after the single
progress write `update_job_progress(progress=0.3)` the value is stored as
`progress * 100 = 30` in the `progress_percent` column, `get_job` reads it
back without rescaling, and the initial snapshot a progress-stream
subscriber receives therefore reports `30`, outside the claimed range
`0.0 - 1.0`; the next live event of the run (the embedding stage at `0.4`)
is smaller, so the reported sequence also decreases. -/
theorem c5_progress_snapshot_out_of_range :
    stream_initial_snapshot (row_to_job_record
      (update_job_progress {} (some .running) (some (3 / 10)) none none none 0)) = 30 ∧
    ¬ (stream_initial_snapshot (row_to_job_record
      (update_job_progress {} (some .running) (some (3 / 10)) none none none 0)) ≤ 1) ∧
    embedding_stage_progress <
      stream_initial_snapshot (row_to_job_record
        (update_job_progress {} (some .running) (some (3 / 10)) none none none 0)) := by
  refine ⟨?_, ?_, ?_⟩ <;>
    norm_num [stream_initial_snapshot, row_to_job_record, update_job_progress,
      embedding_stage_progress]

set_option maxHeartbeats 2000000 in
/-- C6: extracting the round-trip document yields exactly one
building-block entity derived from `ORP.1`, one requirement entity with
tier metadata `B`, and one layer entity for the prefix `ORP` mapped through
the fixed table; the relationships are the two `BELONGS_TO` edges
(requirement to building-block, building-block to layer) and one
`REFERENCES` edge from the requirement to the id derived from `ORP.2`,
although no entity with that id exists. -/
theorem c6_small_document_round_trip (m : Str → Str) :
    ((resultC6 m).entities.map (fun e => (e.id, e.type)) =
      [(str "baustein:ORP.1", EntityType.baustein),
       (str "anforderung:ORP.1.A1", EntityType.anforderung),
       (str "schicht:ORP", EntityType.schicht)]) ∧
    ((resultC6 m).entities.map (fun e => e.title) =
      [str "ORP.1 Organisation", str "ORP.1.A1 Regelung (B)",
       str "ORP - Organisation und Personal"]) ∧
    ((resultC6 m).entities.map (fun e => metaGet (str "anforderung_typ") e.metadata) =
      [none, some (.s (str "B")), none]) ∧
    ((resultC6 m).relationships =
      [⟨str "baustein:ORP.1", str "schicht:ORP", str "BELONGS_TO"⟩,
       ⟨str "anforderung:ORP.1.A1", str "baustein:ORP.1", str "BELONGS_TO"⟩,
       ⟨str "anforderung:ORP.1.A1", str "baustein:ORP.2", str "REFERENCES"⟩]) ∧
    (str "baustein:ORP.2") ∉ (resultC6 m).entities.map (fun e => e.id) := by
  refine ⟨rfl, rfl, rfl, rfl, ?_⟩
  rw [show (resultC6 m).entities.map (fun e => e.id) =
    [str "baustein:ORP.1", str "anforderung:ORP.1.A1", str "schicht:ORP"] from rfl]
  decide

/-- C8 counterexample: an old job in the terminal state `cancelled` is not
deleted by the cleanup — the statement deletes only `completed` and
`failed` rows — so the deleted count is zero and the job survives. -/
theorem c8_counterexample :
    (cleanup_old_jobs [oldCancelledJob] 5).2 = 0 ∧
    oldCancelledJob ∈ (cleanup_old_jobs [oldCancelledJob] 5).1 := by
  constructor
  · decide
  · decide

/-- C8 amended: `cleanup_old_jobs` deletes exactly the jobs whose status is
`completed` or `failed` and whose creation time lies before the cutoff,
returning their count; every other row — in particular every `cancelled`
row and every row in a non-terminal state — is kept. -/
theorem c8_cleanup_amended (table : List JobDbRow) (cutoff : ℚ) :
    (∀ r, r ∈ (cleanup_old_jobs table cutoff).1 ↔
      r ∈ table ∧ ¬ ((r.status = .completed ∨ r.status = .failed) ∧ r.created_at < cutoff)) ∧
    (cleanup_old_jobs table cutoff).2 + (cleanup_old_jobs table cutoff).1.length =
      table.length ∧
    (∀ r ∈ table, r.status ≠ .completed → r.status ≠ .failed →
      r ∈ (cleanup_old_jobs table cutoff).1) := by
  have hmain : ∀ (t : List JobDbRow),
      (∀ r, r ∈ (cleanup_old_jobs t cutoff).1 ↔
        r ∈ t ∧ ¬ ((r.status = .completed ∨ r.status = .failed) ∧ r.created_at < cutoff)) ∧
      (cleanup_old_jobs t cutoff).2 + (cleanup_old_jobs t cutoff).1.length = t.length := by
    intro t
    induction t with
    | nil => exact ⟨fun r => by simp [cleanup_old_jobs], rfl⟩
    | cons a t ih =>
      by_cases hcond : (a.status = .completed ∨ a.status = .failed) ∧ a.created_at < cutoff
      · have hstep : cleanup_old_jobs (a :: t) cutoff =
            ((cleanup_old_jobs t cutoff).1, (cleanup_old_jobs t cutoff).2 + 1) := by
          simp [cleanup_old_jobs, hcond]
        constructor
        · intro r
          rw [hstep]
          rw [ih.1 r]
          simp only [List.mem_cons]
          constructor
          · rintro ⟨hmem, hnc⟩
            exact ⟨Or.inr hmem, hnc⟩
          · rintro ⟨hmem | hmem, hnc⟩
            · subst hmem
              exact absurd hcond hnc
            · exact ⟨hmem, hnc⟩
        · rw [hstep]
          simp only [List.length_cons]
          have := ih.2
          omega
      · have hstep : cleanup_old_jobs (a :: t) cutoff =
            (a :: (cleanup_old_jobs t cutoff).1, (cleanup_old_jobs t cutoff).2) := by
          simp [cleanup_old_jobs, hcond]
        constructor
        · intro r
          rw [hstep]
          simp only [List.mem_cons]
          rw [ih.1 r]
          constructor
          · rintro (heq | ⟨hmem, hnc⟩)
            · subst heq
              exact ⟨Or.inl rfl, hcond⟩
            · exact ⟨Or.inr hmem, hnc⟩
          · rintro ⟨hmem | hmem, hnc⟩
            · subst hmem
              exact Or.inl rfl
            · exact Or.inr ⟨hmem, hnc⟩
        · rw [hstep]
          simp only [List.length_cons]
          have := ih.2
          omega
  refine ⟨(hmain table).1, (hmain table).2, ?_⟩
  intro r hr h1 h2
  refine ((hmain table).1 r).mpr ⟨hr, ?_⟩
  rintro ⟨hst | hst, _⟩
  · exact h1 hst
  · exact h2 hst

/-- C9: `resume_job` rejects a missing job and any job whose status is not
`running` or `failed` (in particular a cancelled job) with no launch and no
status write; on a `running` or `failed` job it re-launches the pipeline
with the stored options and returns true. -/
theorem c9_resume_job_gate :
    resume_job none = ⟨false, none, false⟩ ∧
    (∀ j : JobRecM, j.status ≠ .running → j.status ≠ .failed →
      resume_job (some j) = ⟨false, none, false⟩) ∧
    (∀ j : JobRecM, j.status = .cancelled →
      resume_job (some j) = ⟨false, none, false⟩) ∧
    (∀ (j : JobRecM) (o : ProcessingOptionsM),
      (j.status = .running ∨ j.status = .failed) → j.options = some o →
      resume_job (some j) = ⟨true, some (j.file_path, o), true⟩) := by
  refine ⟨rfl, ?_, ?_, ?_⟩
  · intro j h1 h2
    have hng : ¬ (j.status = .running ∨ j.status = .failed) := by tauto
    simp only [resume_job]
    rw [if_neg hng]
  · intro j h
    have hng : ¬ (j.status = .running ∨ j.status = .failed) := by
      rw [h]
      rintro (h' | h') <;> exact JobStatus.noConfusion h'
    simp only [resume_job]
    rw [if_neg hng]
  · intro j o h ho
    simp only [resume_job]
    rw [if_pos h, ho]

/-- Witness for C9: a cancelled job is rejected, a failed job with stored
default options is re-launched. -/
theorem c9_resume_job_gate_witness :
    resume_job (some jobCancelled) = ⟨false, none, false⟩ ∧
    resume_job (some jobFailed) = ⟨true, some (str "f.xml", {}), true⟩ :=
  ⟨c9_resume_job_gate.2.2.1 jobCancelled rfl,
   c9_resume_job_gate.2.2.2 jobFailed {} (Or.inr rfl) rfl⟩

/-- Witness for the amended C2 at a concrete chunking call. -/
theorem c2_chunk_ids_amended_witness :
    ((chunk_text cfgW [] (str "a b c d e") (str "e") .anforderung none []).map
      (fun c => c.id)).Nodup :=
  (c2_chunk_ids_amended.1 cfgW [] (str "a b c d e") (str "e") .anforderung none []).1

/-- Witness for C6 at the concrete stand-in digest. -/
theorem c6_small_document_round_trip_witness :
    (resultC6 md5zero).relationships =
      [⟨str "baustein:ORP.1", str "schicht:ORP", str "BELONGS_TO"⟩,
       ⟨str "anforderung:ORP.1.A1", str "baustein:ORP.1", str "BELONGS_TO"⟩,
       ⟨str "anforderung:ORP.1.A1", str "baustein:ORP.2", str "REFERENCES"⟩] :=
  (c6_small_document_round_trip md5zero).2.2.2.1

/-- Witness for the amended C8: the old cancelled job is kept. -/
theorem c8_cleanup_amended_witness :
    oldCancelledJob ∈ (cleanup_old_jobs [oldCancelledJob] 5).1 :=
  (c8_cleanup_amended [oldCancelledJob] 5).2.2 oldCancelledJob (by decide) (by decide) (by decide)

/-! ### The discontinued-requirement policy -/

theorem anfCrossRefStep_chunks (eid : Str) : ∀ (s : PState) (cr : Str),
    (anfCrossRefStep eid s cr).chunks = s.chunks := fun _ _ => rfl

theorem anfRoleStep_chunks (eid : Str) : ∀ (s : PState) (role : Str),
    (anfRoleStep eid s role).chunks = s.chunks := by
  intro s role
  unfold anfRoleStep
  by_cases hb : s.entities.any (fun e => e.id == generate_entity_id .rolle role)
  · simp [hb]
  · simp [hb]

theorem anfCrossRefStep_entities (eid : Str) : ∀ (s : PState) (cr : Str),
    ∃ add, (anfCrossRefStep eid s cr).entities = s.entities ++ add :=
  fun s _ => ⟨[], by simp [anfCrossRefStep]⟩

theorem anfRoleStep_entities (eid : Str) : ∀ (s : PState) (role : Str),
    ∃ add, (anfRoleStep eid s role).entities = s.entities ++ add := by
  intro s role
  unfold anfRoleStep
  by_cases hb : s.entities.any (fun e => e.id == generate_entity_id .rolle role)
  · exact ⟨[], by simp [hb]⟩
  · exact ⟨[⟨generate_entity_id .rolle role, .rolle, role, str "Rolle: " ++ role,
       none, none, [(str "role_name", .s role)]⟩], by simp [hb]⟩

theorem anf_folds_chunks (eid : Str) (l1 l2 : List Str) (s : PState) :
    (l2.foldl (anfRoleStep eid) (l1.foldl (anfCrossRefStep eid) s)).chunks = s.chunks := by
  rw [foldl_chunks_const (anfRoleStep eid) (anfRoleStep_chunks eid),
      foldl_chunks_const (anfCrossRefStep eid) (anfCrossRefStep_chunks eid)]

theorem anf_folds_mem_id (eid x : Str) (l1 l2 : List Str) (s : PState)
    (hx : x ∈ s.entities.map (fun e => e.id)) :
    x ∈ (l2.foldl (anfRoleStep eid) (l1.foldl (anfCrossRefStep eid) s)).entities.map
      (fun e => e.id) := by
  obtain ⟨a1, h1⟩ :=
    foldl_entities_extend (anfCrossRefStep eid) (anfCrossRefStep_entities eid) l1 s
  obtain ⟨a2, h2⟩ :=
    foldl_entities_extend (anfRoleStep eid) (anfRoleStep_entities eid) l2
      (l1.foldl (anfCrossRefStep eid) s)
  rw [h2, h1, List.append_assoc, List.map_append]
  exact List.mem_append_left _ hx

/-- C7: a requirement section carrying the discontinued marker still
produces its requirement entity, but with discontinued tracking enabled it
contributes no chunks; with tracking disabled the processing coincides with
`process_anf_section_nodisc` — the processing of a requirement that is not
discontinued — and appends exactly the normal chunks of its content. -/
theorem c7_discontinued_policy (cfg : Config) (gl : GlossMap) (beid bcode : Str)
    (sec : Element) (st : PState) (te : Element) (code : Str)
    (h1 : findFirst (str "title") sec = some te)
    (h2 : anforderung_match (get_element_text te) = some code)
    (h3 : is_discontinued (get_element_text te) (get_element_text sec) = true) :
    (cfg.track_discontinued = true →
      (process_anf_section cfg gl beid bcode sec st).chunks = st.chunks ∧
      generate_entity_id .anforderung code ∈
        (process_anf_section cfg gl beid bcode sec st).entities.map (fun e => e.id)) ∧
    (cfg.track_discontinued = false →
      process_anf_section cfg gl beid bcode sec st =
        process_anf_section_nodisc cfg gl beid bcode sec st ∧
      (process_anf_section cfg gl beid bcode sec st).chunks =
        st.chunks ++ chunk_text cfg gl (get_element_text sec)
          (generate_entity_id .anforderung code) .anforderung
          (if cfg.store_bookmark_ids then sec.xmlId else none)
          [(str "anforderung_code", .s code), (str "baustein_code", .s bcode),
           (str "anforderung_typ",
             match extract_anforderung_typ (get_element_text te) with
             | some c => .s [c] | none => .null),
           (str "roles", .ls (extract_roles_from_title (get_element_text te))),
           (str "cross_references", .ls (extract_cross_references (get_element_text sec))),
           (str "standard_references",
             .ls (extract_standard_references (get_element_text sec)))]) := by
  constructor
  · intro ht
    simp only [process_anf_section, h1, h2, ht, h3, Bool.true_and, if_true, ite_true]
    constructor
    · rw [anf_folds_chunks]
    · apply anf_folds_mem_id
      simp
  · intro hf
    simp only [process_anf_section, process_anf_section_nodisc, h1, h2, hf, Bool.false_and,
      Bool.false_eq_true, if_false, ite_false]
    constructor
    · trivial
    · rw [anf_folds_chunks]

/-- Witness for C7: the concrete discontinued requirement `ORP.9.A9`,
processed with tracking enabled, yields no chunks but its entity id. -/
theorem c7_discontinued_policy_witness :
    (process_anf_section cfgDefault [] (str "baustein:ORP.9") (str "ORP.9") secDisc {}).chunks =
      ({} : PState).chunks ∧
    generate_entity_id .anforderung (str "ORP.9.A9") ∈
      (process_anf_section cfgDefault [] (str "baustein:ORP.9") (str "ORP.9")
        secDisc {}).entities.map (fun e => e.id) :=
  (c7_discontinued_policy cfgDefault [] (str "baustein:ORP.9") (str "ORP.9") secDisc {}
    (titleEl "ORP.9.A9 Alte Regelung ENTFALLEN (B)") (str "ORP.9.A9")
    rfl (by decide) (by decide)).1 rfl

end XP
